import Mathlib

/-!
# Verification of the api-gateway-template service-proxy layer

Shallow embedding of `src/api-gateway-template/src/index.ts` (the
`ServiceProxy` class with its retry loop, the error classifier
`transformError`, `healthCheck`, and the fan-out helpers
`aggregateServiceData` and `enrichData`).

Modelling conventions:
* All untyped (`any`) payloads — request bodies, response bodies, error
  response bodies — are modelled by one type parameter `T`.
* JavaScript `undefined`/absent fields are `Option.none`; JavaScript `null`
  stored in a record is `Option.none` in the record's value type.
* JavaScript truthiness of a number (`lastError.status && ...`,
  `timeout || this.config.timeout`) is modelled explicitly: `0` is falsy.
* The HTTP transport (axios) is an oracle: a function from the request
  configuration and the physical-attempt index to that attempt's outcome.
  Errors delivered to the retry loop have already passed through the
  response interceptor, i.e. they are `ServiceProxyError`s; an error that
  bypasses classification is one whose `status` field is `none`.
* Wall-clock time (`Date.now() - startTime`) is an oracle `elapsedAt`
  giving the elapsed milliseconds at the completion of each attempt.
* `Promise.allSettled` fan-out with nondeterministic completion order is
  modelled by folding the legs in an arbitrary permutation of the input
  list.
* The `code` field set by `deriveCodeFromMessage` is not modelled: no
  property below depends on it.
-/

/-- String literal constants (axios error codes and fixed strings from the
source). -/
def codeECONNREFUSED : String := "ECONNREFUSED"

def codeENOTFOUND : String := "ENOTFOUND"

def codeETIMEDOUT : String := "ETIMEDOUT"

def timeoutWord : String := "timeout"

def msgServiceRequestFailed : String := "Service request failed"

def msgUnknownServiceError : String := "Unknown service error"

def msgServicePrefix : String := "Service "

def msgUnavailableSuffix : String := " is unavailable"

def msgRequestToPrefix : String := "Request to "

def msgTimedOutSuffix : String := " timed out"

def msgFailedToConnectPrefix : String := "Failed to connect to "

def healthPath : String := "/health"

def httpGET : String := "GET"

def httpPOST : String := "POST"

def httpPUT : String := "PUT"

def httpDELETE : String := "DELETE"

def httpPATCH : String := "PATCH"

/-- `ServiceProxyConfig` from the source: `{ baseUrl, timeout, retries, headers }`. -/
structure ServiceProxyConfig where
  baseUrl : String
  timeout : Nat
  retries : Nat
  headers : List (String × String)
deriving DecidableEq

/-- A `ServiceProxy` instance: the fields assigned in the constructor
(`this.serviceName`, `this.config`). The axios instance itself is the
transport oracle passed to each operation. -/
structure ServiceProxy where
  serviceName : String
  config : ServiceProxyConfig
deriving DecidableEq

/-- The `error.response` object of a raw axios failure, and also a raw
successful axios response: `{ data, status, headers }`. -/
structure AxiosResponseData (T : Type) where
  data : T
  status : Nat
  headers : List (String × String)
deriving DecidableEq

/-- A raw failure as delivered by axios to the response interceptor:
optional `code`, optional `message`, optional `response`. -/
structure RawError (T : Type) where
  code : Option String := none
  message : Option String := none
  response : Option (AxiosResponseData T) := none
deriving DecidableEq

/-- `ServiceProxyError`: the classified error built by `transformError`.
`status := none` models an error object that never got a `status` field
(one that bypassed the classifier). -/
structure ServiceProxyError (T : Type) where
  message : String := ""
  isNetworkError : Bool := false
  isTimeout : Bool := false
  status : Option Nat := none
  response : Option (AxiosResponseData T) := none
deriving DecidableEq

/-- JavaScript substring test `s.includes(sub)`. -/
def strIncludes (s sub : String) : Bool := (s.splitOn sub).length ≠ 1

/-- JavaScript `m?.includes('timeout')` for an optional message
(optional chaining: absent message is falsy). -/
def optMessageIncludesTimeout (m : Option String) : Bool :=
  match m with
  | none => false
  | some s => strIncludes s timeoutWord

/-- JavaScript `m || d` for an optional string: absent and empty strings are
falsy. -/
def jsOrString (m : Option String) (d : String) : String :=
  match m with
  | none => d
  | some s => if s = "" then d else s

/-- JavaScript `v || d` for an optional number: absent and `0` are falsy. -/
def jsOrNat (v : Option Nat) (d : Nat) : Nat :=
  match v with
  | none => d
  | some n => if n = 0 then d else n

/-- `ServiceProxy.transformError` (src/api-gateway-template/src/index.ts,
lines 606–634): classify a raw axios failure. Branch order follows the
source: connection errors, then timeouts, then received responses, then
everything else. -/
def ServiceProxy.transformError (p : ServiceProxy) (error : RawError T) :
    ServiceProxyError T :=
  if error.code = some codeECONNREFUSED ∨ error.code = some codeENOTFOUND then
    { message := msgServicePrefix ++ p.serviceName ++ msgUnavailableSuffix
      isNetworkError := true
      status := some 503 }
  else if error.code = some codeETIMEDOUT ∨ optMessageIncludesTimeout error.message then
    { message := msgRequestToPrefix ++ p.serviceName ++ msgTimedOutSuffix
      isTimeout := true
      status := some 504 }
  else
    match error.response with
    | some resp =>
        { message := jsOrString error.message msgServiceRequestFailed
          status := some resp.status
          response := some resp }
    | none =>
        { message := jsOrString error.message msgUnknownServiceError
          status := some 502 }

/-- The axios request configuration built by `ServiceProxy.request`. -/
structure AxiosRequestConfig (T : Type) where
  method : String
  url : String
  data : Option T := none
  params : Option (List (String × String)) := none
  timeout : Nat

/-- Outcome of one physical attempt: a raw axios response, or the
`ServiceProxyError` produced by the response interceptor (or an error
that bypassed it). -/
inductive AttemptOutcome (T : Type) where
  | success (resp : AxiosResponseData T)
  | failure (err : ServiceProxyError T)
deriving DecidableEq

/-- `ServiceProxyResponse` returned to the caller on success. -/
structure ServiceProxyResponse (T : Type) where
  data : T
  status : Nat
  headers : List (String × String)
  responseTime : Nat
deriving DecidableEq

/-- What a failed logical call throws: the last `ServiceProxyError`, or the
`GatewayError` fallback of `throw lastError || new GatewayError(...)`. -/
inductive RequestFailure (T : Type) where
  | proxyError (e : ServiceProxyError T)
  | gatewayError (message : String)
deriving DecidableEq

instance {ε α : Type _} [DecidableEq ε] [DecidableEq α] : DecidableEq (Except ε α) :=
  fun x y =>
    match x, y with
    | Except.ok a, Except.ok b =>
        if h : a = b then isTrue (by rw [h])
        else isFalse (by intro he; cases he; exact h rfl)
    | Except.error a, Except.error b =>
        if h : a = b then isTrue (by rw [h])
        else isFalse (by intro he; cases he; exact h rfl)
    | Except.ok _, Except.error _ => isFalse (by intro he; cases he)
    | Except.error _, Except.ok _ => isFalse (by intro he; cases he)

/-- Observable trace of one logical call: its result, the number of
physical attempts issued, and the backoff delays slept (in order). -/
structure RequestTrace (T : Type) where
  result : Except (RequestFailure T) (ServiceProxyResponse T)
  attemptsMade : Nat
  delays : List Nat
deriving DecidableEq

/-- The non-retryable break condition of the retry loop (lines 731–736):
`lastError.status && (lastError.status < 500 || lastError.status === 501 ||
lastError.status === 505)`. A missing status, or status `0`, is falsy. -/
def nonRetryableBreak (e : ServiceProxyError T) : Bool :=
  match e.status with
  | none => false
  | some s => s ≠ 0 ∧ (s < 500 ∨ s = 501 ∨ s = 505)

/-- The exponential backoff delay computed inside the loop (line 746):
`Math.min(1000 * Math.pow(2, attempt - 1), 5000)`, where `attempt` has
already been incremented past the failed attempt. -/
def backoffDelay (attempt : Nat) : Nat := min (1000 * 2 ^ (attempt - 1)) 5000

/-- The final `throw lastError || new GatewayError(...)` after the loop. -/
def finishTrace (serviceName : String) (lastError : Option (ServiceProxyError T))
    (attemptsMade : Nat) (delays : List Nat) : RequestTrace T :=
  { result := Except.error (match lastError with
      | some e => RequestFailure.proxyError e
      | none => RequestFailure.gatewayError (msgFailedToConnectPrefix ++ serviceName))
    attemptsMade := attemptsMade
    delays := delays }

/-- The `while (attempt <= retries)` loop of `ServiceProxy.request`
(lines 714–753), transcribed with explicit fuel (the caller supplies
`retries + 1`, which bounds the iteration count since `attempt` grows on
every failing iteration and the loop exits on success). `break` is
modelled by jumping to `finishTrace` with the current `lastError`. -/
def requestGo (serviceName : String) (outcomes : Nat → AttemptOutcome T)
    (elapsedAt : Nat → Nat) (retries : Nat) :
    Nat → Nat → Option (ServiceProxyError T) → Nat → List Nat → RequestTrace T
  | 0, _, lastError, attemptsMade, delays =>
      finishTrace serviceName lastError attemptsMade delays
  | fuel + 1, attempt, lastError, attemptsMade, delays =>
      if attempt ≤ retries then
        match outcomes attempt with
        | AttemptOutcome.success resp =>
            { result := Except.ok
                { data := resp.data
                  status := resp.status
                  headers := resp.headers
                  responseTime := elapsedAt attempt }
              attemptsMade := attemptsMade + 1
              delays := delays }
        | AttemptOutcome.failure e =>
            if nonRetryableBreak e then
              finishTrace serviceName (some e) (attemptsMade + 1) delays
            else if attempt + 1 > retries then
              finishTrace serviceName (some e) (attemptsMade + 1) delays
            else
              requestGo serviceName outcomes elapsedAt retries fuel (attempt + 1)
                (some e) (attemptsMade + 1) (delays ++ [backoffDelay (attempt + 1)])
      else
        finishTrace serviceName lastError attemptsMade delays

/-- Options accepted by `ServiceProxy.request`:
`{ data?, params?, retries?, timeout? }`. -/
structure RequestCallOptions (T : Type) where
  data : Option T := none
  params : Option (List (String × String)) := none
  retries : Option Nat := none
  timeout : Option Nat := none

/-- Options accepted by the public verb methods: `{ retries?, timeout? }`. -/
structure RequestOptions where
  retries : Option Nat := none
  timeout : Option Nat := none

/-- `ServiceProxy.request` (lines 693–753). The proxy value is returned
alongside the trace to make the (absence of) state mutation explicit: the
method reads `this.config` and `this.serviceName` and never assigns to
them. `retries = options.retries ?? this.config.retries` via destructuring
default; `timeout: timeout || this.config.timeout` with JS truthiness. -/
def ServiceProxy.request (p : ServiceProxy) (method : String) (path : String)
    (options : RequestCallOptions T)
    (transport : AxiosRequestConfig T → Nat → AttemptOutcome T)
    (elapsedAt : Nat → Nat) : RequestTrace T × ServiceProxy :=
  let retries := options.retries.getD p.config.retries
  let requestConfig : AxiosRequestConfig T :=
    { method := method.toLower
      url := path
      data := options.data
      params := options.params
      timeout := jsOrNat options.timeout p.config.timeout }
  (requestGo p.serviceName (transport requestConfig) elapsedAt retries
    (retries + 1) 0 none 0 [], p)

/-- `ServiceProxy.get`: `this.request('GET', path, { params, ...options })`. -/
def ServiceProxy.get (p : ServiceProxy) (path : String)
    (params : Option (List (String × String))) (options : RequestOptions)
    (transport : AxiosRequestConfig T → Nat → AttemptOutcome T)
    (elapsedAt : Nat → Nat) : RequestTrace T × ServiceProxy :=
  p.request httpGET path
    { params := params, retries := options.retries, timeout := options.timeout }
    transport elapsedAt

/-- `ServiceProxy.post`: `this.request('POST', path, { data, ...options })`. -/
def ServiceProxy.post (p : ServiceProxy) (path : String) (data : Option T)
    (options : RequestOptions)
    (transport : AxiosRequestConfig T → Nat → AttemptOutcome T)
    (elapsedAt : Nat → Nat) : RequestTrace T × ServiceProxy :=
  p.request httpPOST path
    { data := data, retries := options.retries, timeout := options.timeout }
    transport elapsedAt

/-- `ServiceProxy.put`: `this.request('PUT', path, { data, ...options })`. -/
def ServiceProxy.put (p : ServiceProxy) (path : String) (data : Option T)
    (options : RequestOptions)
    (transport : AxiosRequestConfig T → Nat → AttemptOutcome T)
    (elapsedAt : Nat → Nat) : RequestTrace T × ServiceProxy :=
  p.request httpPUT path
    { data := data, retries := options.retries, timeout := options.timeout }
    transport elapsedAt

/-- `ServiceProxy.delete`: `this.request('DELETE', path, options)`. -/
def ServiceProxy.delete (p : ServiceProxy) (path : String)
    (options : RequestOptions)
    (transport : AxiosRequestConfig T → Nat → AttemptOutcome T)
    (elapsedAt : Nat → Nat) : RequestTrace T × ServiceProxy :=
  p.request httpDELETE path
    { retries := options.retries, timeout := options.timeout }
    transport elapsedAt

/-- `ServiceProxy.patch`: `this.request('PATCH', path, { data, ...options })`. -/
def ServiceProxy.patch (p : ServiceProxy) (path : String) (data : Option T)
    (options : RequestOptions)
    (transport : AxiosRequestConfig T → Nat → AttemptOutcome T)
    (elapsedAt : Nat → Nat) : RequestTrace T × ServiceProxy :=
  p.request httpPATCH path
    { data := data, retries := options.retries, timeout := options.timeout }
    transport elapsedAt

/-- The retry decision the loop body implements for the failure of physical
attempt number `attemptNumber` (1-based, i.e. the post-increment value of
`attempt`): retry unless the break condition fires or the budget is
exhausted. -/
def shouldRetry (e : ServiceProxyError T) (attemptNumber maxRetries : Nat) : Bool :=
  ¬ nonRetryableBreak e ∧ attemptNumber ≤ maxRetries

/-- Result shape of `ServiceProxy.healthCheck`. -/
inductive HealthStatus where
  | healthy
  | unhealthy
deriving DecidableEq

/-- `{ status, responseTime?, error? }` returned by `healthCheck`. -/
structure HealthCheckResult where
  status : HealthStatus
  responseTime : Option Nat := none
  error : Option String := none
deriving DecidableEq

/-- `ServiceProxy.healthCheck` (lines 765–781):
`this.axiosInstance.get('/health', { timeout: 5000 })` wrapped in
try/catch; `tget` is the oracle for that single transport call (path and
per-call timeout), `elapsed` the wall-clock milliseconds the call took.
Errors surface through the response interceptor as `ServiceProxyError`s;
only `.message` is read from them. -/
def ServiceProxy.healthCheck (p : ServiceProxy)
    (tget : String → Nat → Except (ServiceProxyError T) (AxiosResponseData T))
    (elapsed : Nat) : HealthCheckResult × ServiceProxy :=
  match tget healthPath 5000 with
  | Except.ok _ =>
      ({ status := HealthStatus.healthy, responseTime := some elapsed }, p)
  | Except.error e =>
      ({ status := HealthStatus.unhealthy
         responseTime := some elapsed
         error := some e.message }, p)

/-! ## JavaScript object records

`aggregateServiceData` builds its result in a plain object, `enrichData`
mutates a shallow copy of `baseData`. We model an object as an association
list in insertion order; property assignment overwrites in place or
appends. A stored value of `none` is JavaScript `null`. -/

/-- An object record: keys in insertion order, values `Option T`
(`none` = `null`). -/
abbrev JsRecord (T : Type) := List (String × Option T)

/-- Property read `r[k]`: `none` when the key is absent. -/
def recordLookup : JsRecord T → String → Option (Option T)
  | [], _ => none
  | (k', v) :: r, k => if k' = k then some v else recordLookup r k

/-- JavaScript `k in r`. -/
def containsKey : JsRecord T → String → Bool
  | [], _ => false
  | (k', _) :: r, k => k' = k ∨ containsKey r k

/-- Property assignment `r[k] = v`: overwrite in place, else append. -/
def setField : JsRecord T → String → Option T → JsRecord T
  | [], k, v => [(k, v)]
  | (k', v') :: r, k, v =>
      if k' = k then (k, v) :: r else (k', v') :: setField r k v

/-- One fan-out leg as handed to `aggregateServiceData`/`enrichData`:
`{ service, path, params?, key }`, together with the transport and clock
oracles resolving that leg's `service.get(path, params)`. -/
structure AggRequest (T : Type) where
  service : ServiceProxy
  path : String
  params : Option (List (String × String)) := none
  key : String
  transport : AxiosRequestConfig T → Nat → AttemptOutcome T
  elapsedAt : Nat → Nat

/-- The `service.get<T>(path, params)` call one leg performs (default
options: no per-call retries/timeout override). -/
def legResult (req : AggRequest T) :
    Except (RequestFailure T) (ServiceProxyResponse T) :=
  ((req.service.get req.path req.params {} req.transport req.elapsedAt).1).result

/-- The body of one `aggregateServiceData` promise (lines 849–857):
`results[key] = response.data` on success, `results[key] = null` in the
catch (the failure is only logged). -/
def aggregateStep (results : JsRecord T) (req : AggRequest T) : JsRecord T :=
  match legResult req with
  | Except.ok resp => setField results req.key (some resp.data)
  | Except.error _ => setField results req.key none

/-- `aggregateServiceData` (lines 838–861): all legs settle and each writes
its slot of `results`, which starts empty. The argument list is the legs in
completion order; `Promise.allSettled` nondeterminism is captured by the
theorems quantifying over every permutation of the input batch. -/
def aggregateServiceData (completed : List (AggRequest T)) : JsRecord T :=
  completed.foldl aggregateStep []

/-- The body of one `enrichData` promise (lines 878–888):
`enrichedData[key] = response.data` on success; in the catch, set the key
to `null` only when it is not yet present (`!(key in enrichedData)`). -/
def enrichStep (enrichedData : JsRecord T) (req : AggRequest T) : JsRecord T :=
  match legResult req with
  | Except.ok resp => setField enrichedData req.key (some resp.data)
  | Except.error _ =>
      if containsKey enrichedData req.key then enrichedData
      else setField enrichedData req.key none

/-- `enrichData` (lines 866–892): starts from the shallow copy
`{ ...baseData }` and lets every leg settle. The list is the legs in
completion order, as for `aggregateServiceData`. -/
def enrichData (baseData : JsRecord T) (completed : List (AggRequest T)) : JsRecord T :=
  completed.foldl enrichStep baseData

/-- The value a leg contributes to the aggregation result: the response's
`data` on success, `null` on failure. -/
def legValue (req : AggRequest T) : Option T :=
  match legResult req with
  | Except.ok resp => some resp.data
  | Except.error _ => none

/-! ## Lemmas about the retry loop -/

/-- One failing iteration of the retry loop: with budget at the loop head,
a failed attempt either recurses (sleeping the backoff delay) or exits
through the final throw with that error, and the decision is exactly
`shouldRetry` at the post-increment attempt number. -/
theorem requestGo_failure_step {T : Type} (serviceName : String)
    (outcomes : Nat → AttemptOutcome T) (elapsedAt : Nat → Nat)
    (retries fuel attempt : Nat) (lastErr : Option (ServiceProxyError T))
    (acc : Nat) (ds : List Nat) (e : ServiceProxyError T)
    (hle : attempt ≤ retries) (hout : outcomes attempt = AttemptOutcome.failure e) :
    requestGo serviceName outcomes elapsedAt retries (fuel + 1) attempt lastErr acc ds =
      if shouldRetry e (attempt + 1) retries then
        requestGo serviceName outcomes elapsedAt retries fuel (attempt + 1) (some e)
          (acc + 1) (ds ++ [backoffDelay (attempt + 1)])
      else finishTrace serviceName (some e) (acc + 1) ds := by
  by_cases hb : nonRetryableBreak e
  · have hsr : shouldRetry e (attempt + 1) retries = false := by
      simp [shouldRetry, hb]
    simp [requestGo, if_pos hle, hout, hb, hsr]
  · by_cases hr : attempt + 1 ≤ retries
    · have hsr : shouldRetry e (attempt + 1) retries = true := by
        simp [shouldRetry, hb, hr]
      have hgt : ¬ (attempt + 1 > retries) := by omega
      simp [requestGo, if_pos hle, hout, hb, hsr, hgt]
    · have hsr : shouldRetry e (attempt + 1) retries = false := by
        simp [shouldRetry, hb, hr]
      have hgt : attempt + 1 > retries := by omega
      simp [requestGo, if_pos hle, hout, hb, hsr, hgt]

/-- A run in which every physical attempt fails with the same retryable
error: the loop burns its whole fuel, sleeps the backoff delays for the
post-increment attempt numbers, and throws that error. -/
theorem requestGo_allFail {T : Type} (serviceName : String)
    (outcomes : Nat → AttemptOutcome T) (elapsedAt : Nat → Nat) (retries : Nat)
    (e : ServiceProxyError T) (he : nonRetryableBreak e = false)
    (ho : ∀ n, outcomes n = AttemptOutcome.failure e) :
    ∀ (fuel attempt : Nat) (lastErr : Option (ServiceProxyError T))
      (acc : Nat) (ds : List Nat),
      attempt + fuel = retries + 1 → 1 ≤ fuel →
      requestGo serviceName outcomes elapsedAt retries fuel attempt lastErr acc ds =
        { result := Except.error (RequestFailure.proxyError e)
          attemptsMade := acc + fuel
          delays := ds ++ (List.range' (attempt + 1) (fuel - 1)).map backoffDelay } := by
  intro fuel
  induction fuel with
  | zero => intro attempt lastErr acc ds hsum hfuel; omega
  | succ f ih =>
    intro attempt lastErr acc ds hsum _
    have hle : attempt ≤ retries := by omega
    rw [requestGo_failure_step serviceName outcomes elapsedAt retries f attempt
      lastErr acc ds e hle (ho attempt)]
    by_cases hr : attempt + 1 ≤ retries
    · have hf : 1 ≤ f := by omega
      have hsr : shouldRetry e (attempt + 1) retries = true := by
        simp [shouldRetry, he, hr]
      rw [if_pos hsr]
      rw [ih (attempt + 1) (some e) (acc + 1) (ds ++ [backoffDelay (attempt + 1)])
        (by omega) hf]
      have hrange : List.range' (attempt + 1) f =
          (attempt + 1) :: List.range' (attempt + 2) (f - 1) := by
        cases f with
        | zero => omega
        | succ f0 => simp [List.range'_succ]
      simp [hrange]
      omega
    · have hf : f = 0 := by omega
      have hsr : shouldRetry e (attempt + 1) retries = false := by
        simp [shouldRetry, hr]
      rw [if_neg (by simp [hsr])]
      subst hf
      simp [finishTrace]

/-- A successful physical attempt ends the loop at once with that
response's data. -/
theorem requestGo_success_step {T : Type} (serviceName : String)
    (outcomes : Nat → AttemptOutcome T) (elapsedAt : Nat → Nat)
    (retries fuel attempt : Nat) (lastErr : Option (ServiceProxyError T))
    (acc : Nat) (ds : List Nat) (resp : AxiosResponseData T)
    (hle : attempt ≤ retries) (hout : outcomes attempt = AttemptOutcome.success resp) :
    requestGo serviceName outcomes elapsedAt retries (fuel + 1) attempt lastErr acc ds =
      { result := Except.ok
          { data := resp.data
            status := resp.status
            headers := resp.headers
            responseTime := elapsedAt attempt }
        attemptsMade := acc + 1
        delays := ds } := by
  simp [requestGo, if_pos hle, hout]

/-- A status in the classifier's server-error band other than 501/505 does
not fire the non-retryable break. -/
theorem nonRetryableBreak_false_of_server {T : Type} (e : ServiceProxyError T)
    (s : Nat) (hs : e.status = some s) (h5 : 500 ≤ s) (h1 : s ≠ 501)
    (h2 : s ≠ 505) : nonRetryableBreak e = false := by
  simp [nonRetryableBreak, hs]
  omega

/-- A 4xx (or any truthy sub-500) status fires the non-retryable break. -/
theorem nonRetryableBreak_true_of_client {T : Type} (e : ServiceProxyError T)
    (s : Nat) (hs : e.status = some s) (h0 : 0 < s) (h4 : s < 500) :
    nonRetryableBreak e = true := by
  simp [nonRetryableBreak, hs]
  omega

/-- For an error carrying a nonzero status, the loop's retry decision is
exactly: status at least 500, not 501, not 505, budget not exhausted. -/
theorem shouldRetry_iff_of_status {T : Type} (e : ServiceProxyError T)
    (s a r : Nat) (hs : e.status = some s) (h0 : 0 < s) :
    (shouldRetry e a r = true ↔ (500 ≤ s ∧ s ≠ 501 ∧ s ≠ 505 ∧ a ≤ r)) := by
  simp [shouldRetry, nonRetryableBreak, hs]
  omega

/-- The classifier always assigns a status. -/
theorem transformError_status_isSome {T : Type} (p : ServiceProxy)
    (err : RawError T) : ∃ s, (p.transformError err).status = some s := by
  unfold ServiceProxy.transformError
  split_ifs
  · exact ⟨503, rfl⟩
  · exact ⟨504, rfl⟩
  · cases herr : err.response with
    | some resp => exact ⟨resp.status, by simp [herr]⟩
    | none => exact ⟨502, by simp [herr]⟩

/-! ## Claim theorems: retry policy and loop behaviour -/

/-- C1. A failed physical attempt of a logical call is retried exactly when
its classified status is at least 500 and is neither 501 nor 505 and the
(post-increment) attempt number has not exceeded the retry budget; a
status in [400,500) — 429 included — is never retried. The classifier
always assigns a status, and `shouldRetry` is precisely the decision the
retry loop of `ServiceProxy.request` takes on a failure (last conjunct). -/
theorem c1_retry_decision {T : Type} (p : ServiceProxy) (raw : RawError T)
    (attemptNumber maxRetries : Nat) :
    (∃ s, (p.transformError raw).status = some s)
    ∧ (∀ s, (p.transformError raw).status = some s → 0 < s →
        (shouldRetry (p.transformError raw) attemptNumber maxRetries = true ↔
          (500 ≤ s ∧ s ≠ 501 ∧ s ≠ 505 ∧ attemptNumber ≤ maxRetries)))
    ∧ (∀ s, (p.transformError raw).status = some s → 400 ≤ s → s < 500 →
        shouldRetry (p.transformError raw) attemptNumber maxRetries = false)
    ∧ (∀ (serviceName : String) (outcomes : Nat → AttemptOutcome T)
        (elapsedAt : Nat → Nat) (fuel attempt : Nat)
        (lastErr : Option (ServiceProxyError T)) (acc : Nat) (ds : List Nat),
        attempt ≤ maxRetries →
        outcomes attempt = AttemptOutcome.failure (p.transformError raw) →
        requestGo serviceName outcomes elapsedAt maxRetries (fuel + 1) attempt
            lastErr acc ds =
          if shouldRetry (p.transformError raw) (attempt + 1) maxRetries then
            requestGo serviceName outcomes elapsedAt maxRetries fuel (attempt + 1)
              (some (p.transformError raw)) (acc + 1)
              (ds ++ [backoffDelay (attempt + 1)])
          else finishTrace serviceName (some (p.transformError raw)) (acc + 1) ds) := by
  refine ⟨transformError_status_isSome p raw, ?_, ?_, ?_⟩
  · intro s hs h0
    exact shouldRetry_iff_of_status (p.transformError raw) s attemptNumber maxRetries hs h0
  · intro s hs h4 h5
    cases hsr : shouldRetry (p.transformError raw) attemptNumber maxRetries
    · rfl
    · exfalso
      have h0 : 0 < s := by omega
      have := (shouldRetry_iff_of_status (p.transformError raw) s attemptNumber
        maxRetries hs h0).mp hsr
      omega
  · intro serviceName outcomes elapsedAt fuel attempt lastErr acc ds hle hout
    exact requestGo_failure_step serviceName outcomes elapsedAt maxRetries fuel
      attempt lastErr acc ds (p.transformError raw) hle hout

/-- C2. Physical-attempt counts of a logical call: all-retryable failures
give exactly `retries + 1` attempts then a throw; a client-error (4xx)
failure stops after exactly 1 attempt and throws; with `retries = 2`, two
retryable server-error failures followed by a success give exactly 3
attempts and return the successful response's data. -/
theorem c2_attempt_counts {T : Type} (p : ServiceProxy) (method path : String)
    (transport : AxiosRequestConfig T → Nat → AttemptOutcome T)
    (elapsedAt : Nat → Nat) :
    (∀ (e : ServiceProxyError T), nonRetryableBreak e = false →
      (∀ cfg n, transport cfg n = AttemptOutcome.failure e) →
      (p.request method path {} transport elapsedAt).1.attemptsMade =
          p.config.retries + 1 ∧
      (p.request method path {} transport elapsedAt).1.result =
          Except.error (RequestFailure.proxyError e))
    ∧ (∀ (e : ServiceProxyError T) (s : Nat),
      e.status = some s → 400 ≤ s → s < 500 →
      (∀ cfg n, transport cfg n = AttemptOutcome.failure e) →
      (p.request method path {} transport elapsedAt).1.attemptsMade = 1 ∧
      (p.request method path {} transport elapsedAt).1.result =
          Except.error (RequestFailure.proxyError e))
    ∧ (∀ (e : ServiceProxyError T) (s : Nat) (resp : AxiosResponseData T),
      p.config.retries = 2 → e.status = some s → 500 ≤ s → s ≠ 501 → s ≠ 505 →
      (∀ cfg, transport cfg 0 = AttemptOutcome.failure e) →
      (∀ cfg, transport cfg 1 = AttemptOutcome.failure e) →
      (∀ cfg, transport cfg 2 = AttemptOutcome.success resp) →
      (p.request method path {} transport elapsedAt).1.attemptsMade = 3 ∧
      ∃ out, (p.request method path {} transport elapsedAt).1.result =
          Except.ok out ∧ out.data = resp.data) := by
  refine ⟨?_, ?_, ?_⟩
  · intro e he ho
    simp only [ServiceProxy.request]
    rw [requestGo_allFail p.serviceName _ elapsedAt _ e he (fun n => ho _ n)
      _ 0 none 0 [] (by simp) (by simp)]
    simp
  · intro e s hs h4 h5 ho
    have hb : nonRetryableBreak e = true := nonRetryableBreak_true_of_client e s hs
      (by omega) h5
    have hsr : shouldRetry e 1 p.config.retries = false := by
      simp [shouldRetry, hb]
    simp only [ServiceProxy.request]
    rw [requestGo_failure_step p.serviceName _ elapsedAt _ _ 0 none 0 [] e
      (by omega) (ho _ 0)]
    simp [hsr, finishTrace]
  · intro e s resp hr hs h5 h501 h505 ho0 ho1 ho2
    have he : nonRetryableBreak e = false :=
      nonRetryableBreak_false_of_server e s hs h5 h501 h505
    have hsr : forall a, a <= 2 → shouldRetry e a 2 = true := by
      intro a ha
      simp [shouldRetry, he, ha]
    simp only [ServiceProxy.request, Option.getD, hr]
    rw [requestGo_failure_step p.serviceName _ elapsedAt 2 2 0 none 0 [] e
      (by omega) (ho0 _)]
    rw [if_pos (hsr 1 (by omega))]
    rw [requestGo_failure_step p.serviceName _ elapsedAt 2 1 1 (some e) 1 _ e
      (by omega) (ho1 _)]
    rw [if_pos (hsr 2 (by omega))]
    rw [requestGo_success_step p.serviceName _ elapsedAt 2 0 2 (some e) 2 _ resp
      (by omega) (ho2 _)]
    exact ⟨rfl, _, rfl, rfl⟩

/-- C3. The backoff delay slept after the n-th failed attempt is
`min(1000 * 2^(n-1), 5000)` ms with no jitter: the delays recorded by a
run that keeps failing retryably are 1000, 2000, 4000, 5000, 5000, ... and
in particular `backoffDelay 1 = 1000`, `backoffDelay 3 = 4000`,
`backoffDelay 5 = 5000`. -/
theorem c3_backoff_delays {T : Type} (p : ServiceProxy) (method path : String)
    (transport : AxiosRequestConfig T → Nat → AttemptOutcome T)
    (elapsedAt : Nat → Nat) :
    (∀ (e : ServiceProxyError T), nonRetryableBreak e = false →
      (∀ cfg n, transport cfg n = AttemptOutcome.failure e) →
      (p.request method path {} transport elapsedAt).1.delays =
        (List.range p.config.retries).map (fun n => min (1000 * 2 ^ n) 5000))
    ∧ backoffDelay 1 = 1000 ∧ backoffDelay 3 = 4000 ∧ backoffDelay 5 = 5000 := by
  refine ⟨?_, by simp [backoffDelay], by simp [backoffDelay], by simp [backoffDelay]⟩
  intro e he ho
  have hbd : ∀ n, backoffDelay (1 + n) = min (1000 * 2 ^ n) 5000 := by
    intro n
    simp [backoffDelay]
  simp only [ServiceProxy.request]
  rw [requestGo_allFail p.serviceName _ elapsedAt _ e he (fun n => ho _ n)
    _ 0 none 0 [] (by simp) (by simp)]
  simp [List.range'_eq_map_range, List.map_map, Function.comp, hbd]

/-- C10. An error carrying no `status` field at all bypasses the
non-retryable check (`lastError.status && ...` is falsy), so with budget
`r` the call performs exactly `r + 1` physical attempts, sleeping the
backoff delays between them, and then throws that error. -/
theorem c10_statusless_error_always_retried {T : Type} (p : ServiceProxy)
    (method path : String)
    (transport : AxiosRequestConfig T → Nat → AttemptOutcome T)
    (elapsedAt : Nat → Nat) (e : ServiceProxyError T)
    (hs : e.status = none)
    (ho : ∀ cfg n, transport cfg n = AttemptOutcome.failure e) :
    (p.request method path {} transport elapsedAt).1.attemptsMade =
        p.config.retries + 1
    ∧ (p.request method path {} transport elapsedAt).1.result =
        Except.error (RequestFailure.proxyError e)
    ∧ (p.request method path {} transport elapsedAt).1.delays =
        (List.range' 1 p.config.retries).map backoffDelay := by
  have he : nonRetryableBreak e = false := by simp [nonRetryableBreak, hs]
  simp only [ServiceProxy.request]
  rw [requestGo_allFail p.serviceName _ elapsedAt _ e he (fun n => ho _ n)
    _ 0 none 0 [] (by simp) (by simp)]
  simp

/-- In a well-fuelled run whose accumulator equals the attempt counter, an
error result is always the `ServiceProxyError` of the last physical
attempt the loop consumed (never the `GatewayError` fallback). -/
theorem requestGo_error_last {T : Type} (serviceName : String)
    (outcomes : Nat → AttemptOutcome T) (elapsedAt : Nat → Nat) (retries : Nat) :
    ∀ (fuel attempt : Nat) (lastErr : Option (ServiceProxyError T))
      (ds : List Nat) (f : RequestFailure T),
      attempt + fuel = retries + 1 → 1 ≤ fuel →
      (requestGo serviceName outcomes elapsedAt retries fuel attempt lastErr
          attempt ds).result = Except.error f →
      ∃ e, f = RequestFailure.proxyError e ∧
        1 ≤ (requestGo serviceName outcomes elapsedAt retries fuel attempt
            lastErr attempt ds).attemptsMade ∧
        outcomes ((requestGo serviceName outcomes elapsedAt retries fuel attempt
            lastErr attempt ds).attemptsMade - 1) = AttemptOutcome.failure e := by
  intro fuel
  induction fuel with
  | zero => intro attempt lastErr ds f hsum hfuel; omega
  | succ fl ih =>
    intro attempt lastErr ds f hsum _
    have hle : attempt ≤ retries := by omega
    cases hout : outcomes attempt with
    | success resp =>
      rw [requestGo_success_step serviceName outcomes elapsedAt retries fl attempt
        lastErr attempt ds resp hle hout]
      intro herr
      simp at herr
    | failure e =>
      rw [requestGo_failure_step serviceName outcomes elapsedAt retries fl attempt
        lastErr attempt ds e hle hout]
      by_cases hsr : shouldRetry e (attempt + 1) retries = true
      · rw [if_pos hsr]
        have hr : attempt + 1 ≤ retries := by
          simp [shouldRetry] at hsr
          exact hsr.2
        exact ih (attempt + 1) (some e) (ds ++ [backoffDelay (attempt + 1)]) f
          (by omega) (by omega)
      · rw [if_neg hsr]
        intro herr
        simp [finishTrace] at herr
        refine ⟨e, herr.symm, by simp [finishTrace], ?_⟩
        simp [finishTrace, hout]

/-- C8. Whenever a logical call ends in failure, the value thrown is
exactly the classified error of the final physical attempt, unchanged: the
`GatewayError` fallback is unreachable and no partial or default value is
produced. -/
theorem c8_final_error_propagates {T : Type} (p : ServiceProxy)
    (method path : String) (options : RequestCallOptions T)
    (transport : AxiosRequestConfig T → Nat → AttemptOutcome T)
    (elapsedAt : Nat → Nat) (f : RequestFailure T)
    (herr : (p.request method path options transport elapsedAt).1.result =
      Except.error f) :
    ∃ e, f = RequestFailure.proxyError e ∧
      1 ≤ (p.request method path options transport elapsedAt).1.attemptsMade ∧
      transport
        { method := method.toLower
          url := path
          data := options.data
          params := options.params
          timeout := jsOrNat options.timeout p.config.timeout }
        ((p.request method path options transport elapsedAt).1.attemptsMade - 1) =
        AttemptOutcome.failure e := by
  simp only [ServiceProxy.request] at herr ⊢
  exact requestGo_error_last p.serviceName _ elapsedAt _ _ 0 none [] f
    (by simp) (by omega) herr

/-- C4. The classifier is a pure transform with this precedence: a
connection-refused / host-not-found code gives a network-flagged error
with status 503; otherwise a timeout code or a message containing the
timeout indicator gives a timeout-flagged error with status 504;
otherwise a received HTTP response has its status copied onto the error
and its body retained on it; anything else gets status 502. -/
theorem c4_transformError_precedence {T : Type} (p : ServiceProxy)
    (err : RawError T) :
    ((err.code = some codeECONNREFUSED ∨ err.code = some codeENOTFOUND) →
      (p.transformError err).isNetworkError = true ∧
      (p.transformError err).status = some 503)
    ∧ (¬ (err.code = some codeECONNREFUSED ∨ err.code = some codeENOTFOUND) →
      (err.code = some codeETIMEDOUT ∨ optMessageIncludesTimeout err.message = true) →
      (p.transformError err).isTimeout = true ∧
      (p.transformError err).status = some 504)
    ∧ (¬ (err.code = some codeECONNREFUSED ∨ err.code = some codeENOTFOUND) →
      ¬ (err.code = some codeETIMEDOUT ∨ optMessageIncludesTimeout err.message = true) →
      ∀ resp, err.response = some resp →
        (p.transformError err).status = some resp.status ∧
        (p.transformError err).response = some resp)
    ∧ (¬ (err.code = some codeECONNREFUSED ∨ err.code = some codeENOTFOUND) →
      ¬ (err.code = some codeETIMEDOUT ∨ optMessageIncludesTimeout err.message = true) →
      err.response = none →
      (p.transformError err).status = some 502) := by
  refine ⟨?_, ?_, ?_, ?_⟩
  · intro h1
    simp [ServiceProxy.transformError, h1]
  · intro h1 h2
    simp [ServiceProxy.transformError, h1, h2]
  · intro h1 h2 resp hresp
    simp [ServiceProxy.transformError, h1, h2, hresp]
  · intro h1 h2 hresp
    simp [ServiceProxy.transformError, h1, h2, hresp]

/-- C7. `healthCheck` issues a single GET to the fixed path `/health` with
the fixed 5000 ms timeout (its outcome depends only on the transport's
answer at that path and timeout), is independent of the proxy's configured
retry budget and timeout, never throws, and always resolves to a healthy
result, or to an unhealthy one carrying the failure's message. -/
theorem c7_healthCheck_total {T : Type} (p : ServiceProxy)
    (tget : String → Nat → Except (ServiceProxyError T) (AxiosResponseData T))
    (elapsed : Nat) :
    ((p.healthCheck tget elapsed).2 = p)
    ∧ (∀ q : ServiceProxy, (q.healthCheck tget elapsed).1 =
        (p.healthCheck tget elapsed).1)
    ∧ (∀ tget2, tget2 healthPath 5000 = tget healthPath 5000 →
        (p.healthCheck tget2 elapsed).1 = (p.healthCheck tget elapsed).1)
    ∧ ((∃ r, tget healthPath 5000 = Except.ok r ∧
          (p.healthCheck tget elapsed).1 =
            { status := HealthStatus.healthy
              responseTime := some elapsed
              error := none })
       ∨ (∃ e, tget healthPath 5000 = Except.error e ∧
          (p.healthCheck tget elapsed).1 =
            { status := HealthStatus.unhealthy
              responseTime := some elapsed
              error := some e.message })) := by
  refine ⟨?_, ?_, ?_, ?_⟩
  · cases h : tget healthPath 5000 <;> simp [ServiceProxy.healthCheck, h]
  · intro q
    cases h : tget healthPath 5000 <;> simp [ServiceProxy.healthCheck, h]
  · intro tget2 h2
    cases h : tget healthPath 5000 <;>
      simp [ServiceProxy.healthCheck, h, h2]
  · cases h : tget healthPath 5000 with
    | ok r => exact Or.inl ⟨r, rfl, by simp [ServiceProxy.healthCheck, h]⟩
    | error e => exact Or.inr ⟨e, rfl, by simp [ServiceProxy.healthCheck, h]⟩

/-- C9. No operation on a constructed proxy modifies its stored
configuration or service name: every verb (with or without per-call
overrides) and `healthCheck` return the proxy unchanged; a per-call
`retries` override behaves exactly like a proxy constructed with that
budget, for that one call only; and a call passing no options uses the
configured defaults. -/
theorem c9_proxy_immutable {T : Type} (p : ServiceProxy) (method path : String)
    (params : Option (List (String × String))) (data : Option T)
    (options : RequestOptions) (copts : RequestCallOptions T)
    (transport : AxiosRequestConfig T → Nat → AttemptOutcome T)
    (elapsedAt : Nat → Nat)
    (tget : String → Nat → Except (ServiceProxyError T) (AxiosResponseData T))
    (elapsed : Nat) :
    ((p.request method path copts transport elapsedAt).2 = p)
    ∧ ((p.get path params options transport elapsedAt).2 = p)
    ∧ ((p.post path data options transport elapsedAt).2 = p)
    ∧ ((p.put path data options transport elapsedAt).2 = p)
    ∧ ((p.delete path options transport elapsedAt).2 = p)
    ∧ ((p.patch path data options transport elapsedAt).2 = p)
    ∧ ((p.healthCheck tget elapsed).2 = p)
    ∧ (∀ k, (p.request method path { copts with retries := some k } transport
          elapsedAt).1 =
        ({ p with config := { p.config with retries := k } }.request method path
          { copts with retries := none } transport elapsedAt).1)
    ∧ (((p.get path params options transport elapsedAt).2).get path params {}
          transport elapsedAt =
        p.get path params {} transport elapsedAt) := by
  refine ⟨rfl, rfl, rfl, rfl, rfl, rfl, ?_, ?_, rfl⟩
  · cases h : tget healthPath 5000 <;> simp [ServiceProxy.healthCheck, h]
  · intro k
    rfl

/-! ## Lemmas about JavaScript object records and the fan-out folds -/

theorem containsKey_iff_mem {T : Type} (r : JsRecord T) (k : String) :
    containsKey r k = true ↔ k ∈ r.map Prod.fst := by
  induction r with
  | nil => simp [containsKey]
  | cons p r ih =>
    cases p with
    | mk k' v =>
      by_cases h : k' = k
      · subst h
        simp [containsKey]
      · have h2 : ¬ k = k' := fun hh => h hh.symm
        simp [containsKey, h, h2, ih]

theorem recordLookup_setField_self {T : Type} (r : JsRecord T) (k : String)
    (v : Option T) : recordLookup (setField r k v) k = some v := by
  induction r with
  | nil => simp [setField, recordLookup]
  | cons p r ih =>
    cases p with
    | mk k' v' =>
      by_cases h : k' = k <;> simp [setField, recordLookup, h, ih]

theorem recordLookup_setField_ne {T : Type} (r : JsRecord T) (k k' : String)
    (v : Option T) (h : k' ≠ k) :
    recordLookup (setField r k' v) k = recordLookup r k := by
  induction r with
  | nil => simp [setField, recordLookup, h]
  | cons p r ih =>
    cases p with
    | mk k0 v0 =>
      by_cases h0 : k0 = k' <;> by_cases h1 : k0 = k <;>
        simp_all [setField, recordLookup]

theorem containsKey_setField_ne {T : Type} (r : JsRecord T) (k k' : String)
    (v : Option T) (h : k' ≠ k) :
    containsKey (setField r k' v) k = containsKey r k := by
  induction r with
  | nil => simp [setField, containsKey, h]
  | cons p r ih =>
    cases p with
    | mk k0 v0 =>
      by_cases h0 : k0 = k' <;> by_cases h1 : k0 = k <;>
        simp_all [setField, containsKey]

theorem map_fst_setField_absent {T : Type} (r : JsRecord T) (k : String)
    (v : Option T) (h : containsKey r k = false) :
    (setField r k v).map Prod.fst = r.map Prod.fst ++ [k] := by
  induction r with
  | nil => simp [setField]
  | cons p r ih =>
    cases p with
    | mk k0 v0 =>
      simp [containsKey] at h
      simp [setField, h.1, ih h.2]

/-- Each leg writes only its own key: `aggregateStep` is `setField` at the
leg's key with the leg's value. -/
theorem aggregateStep_eq_setField {T : Type} (acc : JsRecord T)
    (req : AggRequest T) :
    aggregateStep acc req = setField acc req.key (legValue req) := by
  unfold aggregateStep legValue
  cases legResult req <;> rfl

theorem recordLookup_foldl_aggregate {T : Type} (legs : List (AggRequest T))
    (acc : JsRecord T) (k : String) (h : ∀ req ∈ legs, req.key ≠ k) :
    recordLookup (legs.foldl aggregateStep acc) k = recordLookup acc k := by
  induction legs generalizing acc with
  | nil => rfl
  | cons l legs ih =>
    simp only [List.foldl_cons]
    rw [ih _ (fun req hr => h req (List.mem_cons_of_mem l hr))]
    rw [aggregateStep_eq_setField]
    exact recordLookup_setField_ne acc k l.key (legValue l)
      (h l (List.mem_cons_self l legs))

theorem containsKey_foldl_aggregate {T : Type} (legs : List (AggRequest T))
    (acc : JsRecord T) (k : String) (h : ∀ req ∈ legs, req.key ≠ k) :
    containsKey (legs.foldl aggregateStep acc) k = containsKey acc k := by
  induction legs generalizing acc with
  | nil => rfl
  | cons l legs ih =>
    simp only [List.foldl_cons]
    rw [ih _ (fun req hr => h req (List.mem_cons_of_mem l hr))]
    rw [aggregateStep_eq_setField]
    exact containsKey_setField_ne acc k l.key (legValue l)
      (h l (List.mem_cons_self l legs))

theorem map_fst_foldl_aggregate {T : Type} (legs : List (AggRequest T))
    (acc : JsRecord T) (hnd : (legs.map AggRequest.key).Nodup)
    (hdisj : ∀ req ∈ legs, containsKey acc req.key = false) :
    (legs.foldl aggregateStep acc).map Prod.fst =
      acc.map Prod.fst ++ legs.map AggRequest.key := by
  induction legs generalizing acc with
  | nil => simp
  | cons l legs ih =>
    simp only [List.map_cons, List.nodup_cons] at hnd
    simp only [List.foldl_cons]
    rw [aggregateStep_eq_setField]
    rw [ih (setField acc l.key (legValue l)) hnd.2 ?_]
    · rw [map_fst_setField_absent acc l.key (legValue l)
        (hdisj l (List.mem_cons_self l legs))]
      simp
    · intro req hr
      have hne : l.key ≠ req.key := by
        intro hkey
        refine hnd.1 ?_
        rw [hkey]
        exact List.mem_map_of_mem AggRequest.key hr
      rw [containsKey_setField_ne acc req.key l.key (legValue l) hne]
      exact hdisj req (List.mem_cons_of_mem l hr)

theorem recordLookup_enrichStep_ne {T : Type} (acc : JsRecord T)
    (req : AggRequest T) (k : String) (h : req.key ≠ k) :
    recordLookup (enrichStep acc req) k = recordLookup acc k := by
  unfold enrichStep
  cases hlr : legResult req with
  | ok resp => exact recordLookup_setField_ne acc k req.key (some resp.data) h
  | error f =>
    show recordLookup (if containsKey acc req.key = true then acc
      else setField acc req.key none) k = recordLookup acc k
    by_cases hc : containsKey acc req.key = true
    · rw [if_pos hc]
    · rw [if_neg hc]
      exact recordLookup_setField_ne acc k req.key none h

theorem containsKey_enrichStep_ne {T : Type} (acc : JsRecord T)
    (req : AggRequest T) (k : String) (h : req.key ≠ k) :
    containsKey (enrichStep acc req) k = containsKey acc k := by
  unfold enrichStep
  cases hlr : legResult req with
  | ok resp => exact containsKey_setField_ne acc k req.key (some resp.data) h
  | error f =>
    show containsKey (if containsKey acc req.key = true then acc
      else setField acc req.key none) k = containsKey acc k
    by_cases hc : containsKey acc req.key = true
    · rw [if_pos hc]
    · rw [if_neg hc]
      exact containsKey_setField_ne acc k req.key none h

theorem recordLookup_foldl_enrich {T : Type} (legs : List (AggRequest T))
    (acc : JsRecord T) (k : String) (h : ∀ req ∈ legs, req.key ≠ k) :
    recordLookup (legs.foldl enrichStep acc) k = recordLookup acc k := by
  induction legs generalizing acc with
  | nil => rfl
  | cons l legs ih =>
    simp only [List.foldl_cons]
    rw [ih _ (fun req hr => h req (List.mem_cons_of_mem l hr))]
    exact recordLookup_enrichStep_ne acc l k (h l (List.mem_cons_self l legs))

theorem containsKey_foldl_enrich {T : Type} (legs : List (AggRequest T))
    (acc : JsRecord T) (k : String) (h : ∀ req ∈ legs, req.key ≠ k) :
    containsKey (legs.foldl enrichStep acc) k = containsKey acc k := by
  induction legs generalizing acc with
  | nil => rfl
  | cons l legs ih =>
    simp only [List.foldl_cons]
    rw [ih _ (fun req hr => h req (List.mem_cons_of_mem l hr))]
    exact containsKey_enrichStep_ne acc l k (h l (List.mem_cons_self l legs))

theorem recordLookup_enrichStep_ok {T : Type} (acc : JsRecord T)
    (req : AggRequest T) (resp : ServiceProxyResponse T)
    (h : legResult req = Except.ok resp) :
    recordLookup (enrichStep acc req) req.key = some (some resp.data) := by
  unfold enrichStep
  rw [h]
  exact recordLookup_setField_self acc req.key (some resp.data)

theorem recordLookup_enrichStep_error_absent {T : Type} (acc : JsRecord T)
    (req : AggRequest T) (f : RequestFailure T)
    (h : legResult req = Except.error f) (hc : containsKey acc req.key = false) :
    recordLookup (enrichStep acc req) req.key = some none := by
  unfold enrichStep
  rw [h]
  show recordLookup (if containsKey acc req.key = true then acc
    else setField acc req.key none) req.key = some none
  rw [if_neg (by rw [hc]; simp)]
  exact recordLookup_setField_self acc req.key none

theorem enrichStep_error_present {T : Type} (acc : JsRecord T)
    (req : AggRequest T) (f : RequestFailure T)
    (h : legResult req = Except.error f) (hc : containsKey acc req.key = true) :
    enrichStep acc req = acc := by
  unfold enrichStep
  rw [h]
  show (if containsKey acc req.key = true then acc
    else setField acc req.key none) = acc
  rw [if_pos hc]

/-- In a batch with pairwise-distinct keys, the legs before and after a
given leg all carry different keys. -/
theorem keys_split_of_nodup {T : Type} (xs ys : List (AggRequest T))
    (req : AggRequest T)
    (hnd : ((xs ++ req :: ys).map AggRequest.key).Nodup) :
    (∀ r' ∈ xs, r'.key ≠ req.key) ∧ (∀ r' ∈ ys, r'.key ≠ req.key) := by
  rw [List.map_append, List.map_cons] at hnd
  rcases List.nodup_append.mp hnd with ⟨h1, h2, hdisj⟩
  constructor
  · intro r' hr' hkey
    exact hdisj (List.mem_map_of_mem AggRequest.key hr')
      (by rw [hkey]; exact List.mem_cons_self _ _)
  · intro r' hr' hkey
    have h3 := (List.nodup_cons.mp h2).1
    refine h3 ?_
    rw [← hkey]
    exact List.mem_map_of_mem AggRequest.key hr'

/-! ## Claim theorems: fan-out helpers -/

/-- C5. For every batch with pairwise-distinct keys, `aggregateServiceData`
(which is a total function — no leg failure escapes it) returns, in every
completion order, a map whose keys are exactly the input keys (one entry
per key) and whose value at each key is that leg's response data on
success and null on failure. -/
theorem c5_aggregate_total_map {T : Type} (requests order : List (AggRequest T))
    (hperm : order.Perm requests)
    (hnd : (requests.map AggRequest.key).Nodup) :
    ((aggregateServiceData order).map Prod.fst).Perm
        (requests.map AggRequest.key)
    ∧ ((aggregateServiceData order).map Prod.fst).Nodup
    ∧ (∀ req ∈ requests,
        recordLookup (aggregateServiceData order) req.key =
          some (legValue req)) := by
  have hordnd : (order.map AggRequest.key).Nodup :=
    ((hperm.map AggRequest.key).nodup_iff).mpr hnd
  have hkeys : (aggregateServiceData order).map Prod.fst =
      order.map AggRequest.key := by
    unfold aggregateServiceData
    rw [map_fst_foldl_aggregate order [] hordnd (fun req _ => rfl)]
    simp
  refine ⟨?_, ?_, ?_⟩
  · rw [hkeys]
    exact hperm.map AggRequest.key
  · rw [hkeys]
    exact hordnd
  · intro req hreq
    have hx : req ∈ order := (hperm.mem_iff).mpr hreq
    obtain ⟨xs, ys, rfl⟩ := List.append_of_mem hx
    obtain ⟨hxs, hys⟩ := keys_split_of_nodup xs ys req hordnd
    unfold aggregateServiceData
    rw [List.foldl_append, List.foldl_cons]
    rw [recordLookup_foldl_aggregate ys _ req.key hys]
    rw [aggregateStep_eq_setField]
    exact recordLookup_setField_self _ req.key (legValue req)

/-- C6. `enrichData` returns the base record with each distinct-keyed
spec's field set to its successful response's data; a failed leg sets the
field to null only when the base record did not carry it, and keeps the
original value when it did; every field not named by any spec is
unchanged (and the base record itself is never mutated — the fold starts
from the shallow copy). -/
theorem c6_enrich_fields {T : Type} (base : JsRecord T)
    (specs order : List (AggRequest T)) (hperm : order.Perm specs)
    (hnd : (specs.map AggRequest.key).Nodup) :
    (∀ req ∈ specs, ∀ resp, legResult req = Except.ok resp →
        recordLookup (enrichData base order) req.key = some (some resp.data))
    ∧ (∀ req ∈ specs, ∀ f, legResult req = Except.error f →
        containsKey base req.key = false →
        recordLookup (enrichData base order) req.key = some none)
    ∧ (∀ req ∈ specs, ∀ f, legResult req = Except.error f →
        containsKey base req.key = true →
        recordLookup (enrichData base order) req.key = recordLookup base req.key)
    ∧ (∀ k, (∀ req ∈ specs, req.key ≠ k) →
        recordLookup (enrichData base order) k = recordLookup base k) := by
  have hordnd : (order.map AggRequest.key).Nodup :=
    ((hperm.map AggRequest.key).nodup_iff).mpr hnd
  refine ⟨?_, ?_, ?_, ?_⟩
  · intro req hreq resp hok
    have hx : req ∈ order := (hperm.mem_iff).mpr hreq
    obtain ⟨xs, ys, rfl⟩ := List.append_of_mem hx
    obtain ⟨hxs, hys⟩ := keys_split_of_nodup xs ys req hordnd
    unfold enrichData
    rw [List.foldl_append, List.foldl_cons]
    rw [recordLookup_foldl_enrich ys _ req.key hys]
    exact recordLookup_enrichStep_ok _ req resp hok
  · intro req hreq f hfail habsent
    have hx : req ∈ order := (hperm.mem_iff).mpr hreq
    obtain ⟨xs, ys, rfl⟩ := List.append_of_mem hx
    obtain ⟨hxs, hys⟩ := keys_split_of_nodup xs ys req hordnd
    unfold enrichData
    rw [List.foldl_append, List.foldl_cons]
    rw [recordLookup_foldl_enrich ys _ req.key hys]
    refine recordLookup_enrichStep_error_absent _ req f hfail ?_
    rw [containsKey_foldl_enrich xs base req.key hxs]
    exact habsent
  · intro req hreq f hfail hpresent
    have hx : req ∈ order := (hperm.mem_iff).mpr hreq
    obtain ⟨xs, ys, rfl⟩ := List.append_of_mem hx
    obtain ⟨hxs, hys⟩ := keys_split_of_nodup xs ys req hordnd
    unfold enrichData
    rw [List.foldl_append, List.foldl_cons]
    rw [recordLookup_foldl_enrich ys _ req.key hys]
    rw [enrichStep_error_present _ req f hfail
      (by rw [containsKey_foldl_enrich xs base req.key hxs]; exact hpresent)]
    exact recordLookup_foldl_enrich xs base req.key hxs
  · intro k hk
    unfold enrichData
    exact recordLookup_foldl_enrich order base k
      (fun req hr => hk req ((hperm.mem_iff).mp hr))

/-! ## Concrete instances -/

def testBaseUrl : String := "http://users.internal"

def testServiceName : String := "users"

def testPath : String := "/users/1"

def keyA : String := "a"

def keyB : String := "b"

def msgBoom : String := "boom"

def testConfig : ServiceProxyConfig :=
  { baseUrl := testBaseUrl, timeout := 3000, retries := 2, headers := [] }

def testProxy : ServiceProxy :=
  { serviceName := testServiceName, config := testConfig }

def testClock : Nat → Nat := fun _ => 7

def clientErr400 : ServiceProxyError Nat :=
  { message := msgBoom, status := some 400 }

def serverErr500 : ServiceProxyError Nat :=
  { message := msgBoom, status := some 500 }

def statuslessErr : ServiceProxyError Nat := { message := msgBoom }

def failingTransport400 : AxiosRequestConfig Nat → Nat → AttemptOutcome Nat :=
  fun _ _ => AttemptOutcome.failure clientErr400

def failingTransport500 : AxiosRequestConfig Nat → Nat → AttemptOutcome Nat :=
  fun _ _ => AttemptOutcome.failure serverErr500

def statuslessTransport : AxiosRequestConfig Nat → Nat → AttemptOutcome Nat :=
  fun _ _ => AttemptOutcome.failure statuslessErr

def okTransport42 : AxiosRequestConfig Nat → Nat → AttemptOutcome Nat :=
  fun _ _ => AttemptOutcome.success { data := 42, status := 200, headers := [] }

def okHealthTransport :
    String → Nat → Except (ServiceProxyError Nat) (AxiosResponseData Nat) :=
  fun _ _ => Except.ok { data := 0, status := 200, headers := [] }

def rawConnRefused : RawError Nat := { code := some codeECONNREFUSED }

def raw429 : RawError Nat :=
  { response := some { data := 0, status := 429, headers := [] } }

def aggReqA : AggRequest Nat :=
  { service := testProxy, path := testPath, key := keyA,
    transport := okTransport42, elapsedAt := testClock }

def aggReqB : AggRequest Nat :=
  { service := testProxy, path := testPath, key := keyB,
    transport := failingTransport400, elapsedAt := testClock }

def baseRecordB : JsRecord Nat := [(keyB, some 9)]

/-! ## Witnesses: the claim theorems applied at concrete inputs -/

/-- C1 witness: a connection-refused failure (classified 503) is retryable
at attempt 1 of budget 2; a 429 response is not, at any attempt. -/
theorem c1_witness :
    shouldRetry (testProxy.transformError rawConnRefused) 1 2 = true ∧
    shouldRetry (testProxy.transformError raw429) 1 2 = false :=
  ⟨((c1_retry_decision testProxy rawConnRefused 1 2).2.1 503 (by decide)
      (by decide)).mpr (by decide),
   (c1_retry_decision testProxy raw429 1 2).2.2.1 429 (by decide) (by decide)
      (by decide)⟩

/-- C2 witness: a proxy with budget 2 whose every attempt fails with a 400
issues exactly one physical attempt and throws that error. -/
theorem c2_witness :
    (testProxy.request httpGET testPath {} failingTransport400 testClock).1.attemptsMade
        = 1 ∧
    (testProxy.request httpGET testPath {} failingTransport400 testClock).1.result
        = Except.error (RequestFailure.proxyError clientErr400) :=
  (c2_attempt_counts testProxy httpGET testPath failingTransport400
    testClock).2.1 clientErr400 400 rfl (by decide) (by decide) (fun _ _ => rfl)

/-- C3 witness: an all-failing run with budget 2 sleeps delays 1000, 2000. -/
theorem c3_witness :
    (testProxy.request httpGET testPath {} failingTransport500 testClock).1.delays
      = (List.range testProxy.config.retries).map (fun n => min (1000 * 2 ^ n) 5000) :=
  (c3_backoff_delays testProxy httpGET testPath failingTransport500 testClock).1
    serverErr500 (by decide) (fun _ _ => rfl)

/-- C4 witness: a connection-refused code classifies as a network error
with status 503. -/
theorem c4_witness :
    (testProxy.transformError rawConnRefused).isNetworkError = true ∧
    (testProxy.transformError rawConnRefused).status = some 503 :=
  (c4_transformError_precedence testProxy rawConnRefused).1 (Or.inl rfl)

/-- C5 witness: a two-leg batch with distinct keys, one succeeding and one
failing, yields a map with both keys, the data and null. -/
theorem c5_witness :
    (([aggReqA, aggReqB].map AggRequest.key).Nodup) ∧
    (((aggregateServiceData [aggReqA, aggReqB]).map Prod.fst).Perm
        ([aggReqA, aggReqB].map AggRequest.key)
      ∧ ((aggregateServiceData [aggReqA, aggReqB]).map Prod.fst).Nodup
      ∧ (∀ req ∈ [aggReqA, aggReqB],
          recordLookup (aggregateServiceData [aggReqA, aggReqB]) req.key =
            some (legValue req))) :=
  ⟨by decide, c5_aggregate_total_map [aggReqA, aggReqB] [aggReqA, aggReqB]
    (List.Perm.refl _) (by decide)⟩

/-- C6 witness: enriching a base record that already carries key `b` with a
succeeding leg `a` and a failing leg `b`. -/
theorem c6_witness :
    (([aggReqA, aggReqB].map AggRequest.key).Nodup) ∧
    ((∀ req ∈ [aggReqA, aggReqB], ∀ resp, legResult req = Except.ok resp →
        recordLookup (enrichData baseRecordB [aggReqA, aggReqB]) req.key =
          some (some resp.data))
      ∧ (∀ req ∈ [aggReqA, aggReqB], ∀ f, legResult req = Except.error f →
          containsKey baseRecordB req.key = false →
          recordLookup (enrichData baseRecordB [aggReqA, aggReqB]) req.key =
            some none)
      ∧ (∀ req ∈ [aggReqA, aggReqB], ∀ f, legResult req = Except.error f →
          containsKey baseRecordB req.key = true →
          recordLookup (enrichData baseRecordB [aggReqA, aggReqB]) req.key =
            recordLookup baseRecordB req.key)
      ∧ (∀ k, (∀ req ∈ [aggReqA, aggReqB], req.key ≠ k) →
          recordLookup (enrichData baseRecordB [aggReqA, aggReqB]) k =
            recordLookup baseRecordB k)) :=
  ⟨by decide, c6_enrich_fields baseRecordB [aggReqA, aggReqB] [aggReqA, aggReqB]
    (List.Perm.refl _) (by decide)⟩

/-- C7 witness: a healthy transport gives the healthy result and leaves the
proxy unchanged. -/
theorem c7_witness :
    (testProxy.healthCheck okHealthTransport 7).1 =
      { status := HealthStatus.healthy, responseTime := some 7, error := none } ∧
    (testProxy.healthCheck okHealthTransport 7).2 = testProxy := by
  refine ⟨?_, (c7_healthCheck_total testProxy okHealthTransport 7).1⟩
  rcases (c7_healthCheck_total testProxy okHealthTransport 7).2.2.2 with
    ⟨r, hr, hres⟩ | ⟨e, he, hres⟩
  · exact hres
  · simp [okHealthTransport] at he

/-- C8 witness: the 400-failing run throws exactly the classified error of
its final (only) physical attempt. -/
theorem c8_witness :
    (testProxy.request httpGET testPath {} failingTransport400 testClock).1.result
        = Except.error (RequestFailure.proxyError clientErr400) ∧
    ∃ e, RequestFailure.proxyError clientErr400 = RequestFailure.proxyError e ∧
      1 ≤ (testProxy.request httpGET testPath {} failingTransport400
          testClock).1.attemptsMade ∧
      failingTransport400
        { method := httpGET.toLower
          url := testPath
          data := none
          params := none
          timeout := jsOrNat none testProxy.config.timeout }
        ((testProxy.request httpGET testPath {} failingTransport400
            testClock).1.attemptsMade - 1) =
        AttemptOutcome.failure e :=
  ⟨by decide, c8_final_error_propagates testProxy httpGET testPath {}
    failingTransport400 testClock (RequestFailure.proxyError clientErr400)
    (by decide)⟩

/-- C9 witness: a GET leaves the proxy unchanged. -/
theorem c9_witness :
    (testProxy.get testPath none {} okTransport42 testClock).2 = testProxy :=
  (c9_proxy_immutable testProxy httpGET testPath none none {} {} okTransport42
    testClock okHealthTransport 7).2.1

/-- C10 witness: a status-less failure on a budget-2 proxy is attempted 3
times with two backoff sleeps before the throw. -/
theorem c10_witness :
    statuslessErr.status = none ∧
    ((testProxy.request httpGET testPath {} statuslessTransport
          testClock).1.attemptsMade = testProxy.config.retries + 1
      ∧ (testProxy.request httpGET testPath {} statuslessTransport
          testClock).1.result =
          Except.error (RequestFailure.proxyError statuslessErr)
      ∧ (testProxy.request httpGET testPath {} statuslessTransport
          testClock).1.delays =
          (List.range' 1 testProxy.config.retries).map backoffDelay) :=
  ⟨rfl, c10_statusless_error_always_retried testProxy httpGET testPath
    statuslessTransport testClock statuslessErr rfl (fun _ _ => rfl)⟩
